import Mathlib

/-!
Verification of the recipe-app-api backend specification.

The repository's source under `src/` contains the recipe serializers and
the test suites for the user model and recipe API.  The Account Directory
(user manager) and the Recipe Store view layer are modelled from the
specification, as noted on each definition.  The serializer field lists
are transcribed directly from `src/app/recipe/serializers.py`.
-/

/-- Error kinds of the system (spec section 7): `ValidationError` (400),
`AuthenticationRequired` (401), `NotFound` (404). -/
inductive SysError where
  | validationError
  | authenticationRequired
  | notFound
deriving Repr, DecidableEq

/-- An account record: email, password hash and role flags
(spec section 3, "Account"). -/
structure Account where
  email : String
  passwordHash : String
  isActive : Bool := true
  isStaff : Bool := false
  isSuperuser : Bool := false
deriving Repr, DecidableEq

/-- Modelled from the spec: the one-way password hashing function applied by
`create_user` before persisting (the hashing code is not under `src/`).
The hash is kept abstract as an injective tagging of the plaintext; no claim
inspects its value. -/
def hashPassword (p : String) : String := "hashed:" ++ p

/-- Lower-case characters until the first `'@'` is met, keeping everything
from that `'@'` on unchanged.  Applied to the reversed character list of an
email this lower-cases exactly the substring after the last `'@'`. -/
def lowerUntilAt : List Char → List Char
  | [] => []
  | c :: rest => if c = '@' then c :: rest else c.toLower :: lowerUntilAt rest

/-- Modelled from the spec: email normalization of the Account Directory,
"lower-casing only the substring after the last `@`" (spec section 4.1); an
email without `'@'` is left unchanged.  The normalizing code itself is not
under `src/`; this follows the spec wording checked by
`test_new_user_email_normalized`. -/
def normalizeEmailChars (cs : List Char) : List Char :=
  if '@' ∈ cs then (lowerUntilAt cs.reverse).reverse else cs

/-- String wrapper of `normalizeEmailChars`. -/
def normalizeEmail (e : String) : String := String.mk (normalizeEmailChars e.data)

/-- Modelled from the spec: `create_user(email, password)` of the Account
Directory (spec section 4.1; the manager code is not under `src/`): fails
with `ValidationError` if `email` is empty, otherwise normalizes the email,
hashes the password and sets the default flags. -/
def createUser (email password : String) : Except SysError Account :=
  if email = "" then .error .validationError
  else .ok { email := normalizeEmail email
             passwordHash := hashPassword password
             isActive := true
             isStaff := false
             isSuperuser := false }

/-- A recipe record (spec section 3, "Recipe"; mirrors the model fields used
in `src/app/recipe/tests/test_recipe_api.py`).  `time_minutes` is an
integer ≥ 0, modelled as `Nat`; the fixed-point decimal `price` is modelled
as an integer number of hundredths. -/
structure Recipe where
  id : Nat
  user : Nat
  title : String
  description : String := ""
  timeMinutes : Nat
  price : Int
  link : String := ""
deriving Repr, DecidableEq

/-- The persistent recipe store: the records plus the next system-assigned
identifier. -/
structure Store where
  recipes : List Recipe
  nextId : Nat
deriving Repr, DecidableEq

/-- A wire payload for recipe create/update requests: each field is present
or absent.  `user` stands for an owner/user key supplied by the client;
`timeMinutes` arrives as a possibly negative wire integer. -/
structure RecipeFields where
  user : Option Nat := none
  title : Option String := none
  description : Option String := none
  timeMinutes : Option Int := none
  price : Option Int := none
  link : Option String := none
deriving Repr, DecidableEq

/-- Every recipe of the store has an identifier distinct from every other
record's (system-assigned unique identifier, spec section 3). -/
def idsUnique (s : Store) : Prop :=
  ∀ a ∈ s.recipes, ∀ b ∈ s.recipes, a.id = b.id → a = b

/-- Insert a recipe into a descending-by-id sorted list. -/
def insertByIdDesc (r : Recipe) : List Recipe → List Recipe
  | [] => [r]
  | x :: xs => if x.id ≤ r.id then r :: x :: xs else x :: insertByIdDesc r xs

/-- Sort recipes by descending identifier. -/
def sortByIdDesc : List Recipe → List Recipe
  | [] => []
  | x :: xs => insertByIdDesc x (sortByIdDesc xs)

/-- Modelled from the spec: `list(owner)` of the Recipe Store (spec
section 4.2; the queryset-filtering view code is not under `src/`): only
recipes whose `owner` equals the caller, ordered by descending identifier. -/
def listRecipes (s : Store) (owner : Nat) : List Recipe :=
  sortByIdDesc (s.recipes.filter (fun r => r.user == owner))

/-- Modelled from the spec: `get(owner, id)` of the Recipe Store (spec
section 4.2; the view code is not under `src/`): the lookup is scoped to
the caller, so a record of another owner is indistinguishable from an
absent one and yields `NotFound`. -/
def getRecipe (s : Store) (owner id : Nat) : Except SysError Recipe :=
  match s.recipes.find? (fun r => r.id == id && r.user == owner) with
  | some r => .ok r
  | none => .error .notFound

/-- Modelled from the spec: `create(owner, fields)` (spec section 4.2; the
view code is not under `src/`): binds the owner to the authenticated caller
regardless of any owner value in `fields`, validates `title` non-empty and
`time_minutes ≥ 0`, and requires `title`, `time_minutes` and `price`. -/
def createRecipe (s : Store) (owner : Nat) (f : RecipeFields) :
    Except SysError (Recipe × Store) :=
  match f.title, f.timeMinutes, f.price with
  | some t, some tm, some pr =>
    if t = "" ∨ tm < 0 then .error .validationError
    else
      let r : Recipe :=
        { id := s.nextId, user := owner, title := t
          description := f.description.getD ""
          timeMinutes := tm.toNat, price := pr
          link := f.link.getD "" }
      .ok (r, { recipes := r :: s.recipes, nextId := s.nextId + 1 })
  | _, _, _ => .error .validationError

/-- Modelled from the spec: merging a payload into an existing record for a
partial update (spec section 4.2): only supplied fields change; an
owner/user key in the payload is ignored; `id` and `user` are kept. -/
def applyPartial (r : Recipe) (f : RecipeFields) : Except SysError Recipe :=
  let t := f.title.getD r.title
  let tm := f.timeMinutes.getD (Int.ofNat r.timeMinutes)
  if t = "" ∨ tm < 0 then .error .validationError
  else .ok { r with title := t
                    description := f.description.getD r.description
                    timeMinutes := tm.toNat
                    price := f.price.getD r.price
                    link := f.link.getD r.link }

/-- Modelled from the spec: merging a payload into an existing record for a
full update (spec section 4.2): all required fields must be supplied,
unsupplied optional fields reset to their defaults, and an owner/user key
in the payload is ignored; `id` and `user` are kept. -/
def applyFull (r : Recipe) (f : RecipeFields) : Except SysError Recipe :=
  match f.title, f.timeMinutes, f.price with
  | some t, some tm, some pr =>
    if t = "" ∨ tm < 0 then .error .validationError
    else .ok { r with title := t
                      description := f.description.getD ""
                      timeMinutes := tm.toNat
                      price := pr
                      link := f.link.getD "" }
  | _, _, _ => .error .validationError

/-- Modelled from the spec: `update(owner, id, fields, partial)` of the
Recipe Store (spec section 4.2; the view code is not under `src/`): looks
the record up under the ownership rule, merges the payload (partially or
fully), and writes the merged record back in place. -/
def updateRecipe (s : Store) (owner id : Nat) (f : RecipeFields)
    (part : Bool) : Except SysError (Recipe × Store) :=
  match getRecipe s owner id with
  | .error e => .error e
  | .ok r =>
    match (if part then applyPartial r f else applyFull r f) with
    | .error e => .error e
    | .ok r2 =>
      .ok (r2, { s with recipes := s.recipes.map (fun x => if x.id == id then r2 else x) })

/-- Modelled from the spec: `delete(owner, id)` (spec section 4.2; the view
code is not under `src/`): removes the record under the same ownership rule
as `get`. -/
def deleteRecipe (s : Store) (owner id : Nat) : Except SysError Store :=
  match getRecipe s owner id with
  | .error e => .error e
  | .ok _ => .ok { s with recipes := s.recipes.filter (fun r => !(r.id == id)) }

/-- Modelled from the spec: `GET /recipes/` (spec section 6; the view and
permission classes are not under `src/`): 401 with no data when
unauthenticated, otherwise 200 with the caller-scoped ordered list. -/
def handleList (s : Store) (auth : Option Nat) : Nat × List Recipe :=
  match auth with
  | none => (401, [])
  | some owner => (200, listRecipes s owner)

/-- Modelled from the spec: `GET /recipes/{id}/` (spec section 6): 401 when
unauthenticated, 404 when not found or not owned, 200 with the record. -/
def handleGet (s : Store) (auth : Option Nat) (id : Nat) : Nat × Option Recipe :=
  match auth with
  | none => (401, none)
  | some owner =>
    match getRecipe s owner id with
    | .error _ => (404, none)
    | .ok r => (200, some r)

/-- Modelled from the spec: `POST /recipes/` (spec section 6): 401 when
unauthenticated, 400 on validation failure, 201 on success; the response
pairs the status with the post-request store. -/
def handleCreate (s : Store) (auth : Option Nat) (f : RecipeFields) : Nat × Store :=
  match auth with
  | none => (401, s)
  | some owner =>
    match createRecipe s owner f with
    | .error _ => (400, s)
    | .ok (_, s2) => (201, s2)

/-- Modelled from the spec: `PATCH` (`part = true`) and `PUT`
(`part = false`) on `/recipes/{id}/` (spec section 6): 401 when
unauthenticated, otherwise the update's outcome mapped to 404/400/200. -/
def handleUpdate (s : Store) (auth : Option Nat) (id : Nat) (f : RecipeFields)
    (part : Bool) : Nat × Store :=
  match auth with
  | none => (401, s)
  | some owner =>
    match updateRecipe s owner id f part with
    | .error .notFound => (404, s)
    | .error _ => (400, s)
    | .ok (_, s2) => (200, s2)

/-- Modelled from the spec: `DELETE /recipes/{id}/` (spec section 6): 401
when unauthenticated, 404 under the ownership rule (store unchanged), 204
on success with the record removed. -/
def handleDelete (s : Store) (auth : Option Nat) (id : Nat) : Nat × Store :=
  match auth with
  | none => (401, s)
  | some owner =>
    match deleteRecipe s owner id with
    | .error _ => (404, s)
    | .ok s2 => (204, s2)

/-- A serialized field value on the wire. -/
inductive FieldVal where
  | nat (n : Nat)
  | int (i : Int)
  | str (s : String)
deriving Repr, DecidableEq

/-- Projection of one named model field of a recipe, the name as it appears
in the serializer field lists of `src/app/recipe/serializers.py`. -/
def fieldOf (r : Recipe) : String → Option FieldVal
  | "id" => some (.nat r.id)
  | "title" => some (.str r.title)
  | "time_minutes" => some (.nat r.timeMinutes)
  | "price" => some (.int r.price)
  | "link" => some (.str r.link)
  | "description" => some (.str r.description)
  | _ => none

/-- Serialize a recipe through a field list: the pure projection the model
serializer performs on the read path. -/
def serialize (fields : List String) (r : Recipe) : List (String × FieldVal) :=
  fields.filterMap (fun f => (fieldOf r f).map (fun v => (f, v)))

/-- `RecipeSerializer.Meta.fields` of `src/app/recipe/serializers.py`. -/
def RecipeSerializer.fields : List String :=
  ["id", "title", "time_minutes", "price", "link"]

/-- `RecipeSerializer.Meta.read_only_fields` of
`src/app/recipe/serializers.py`. -/
def RecipeSerializer.readOnlyFields : List String := ["id"]

/-- `RecipeDetailSerializer.Meta.fields` of `src/app/recipe/serializers.py`:
the summary fields plus `description`. -/
def RecipeDetailSerializer.fields : List String :=
  RecipeSerializer.fields ++ ["description"]

/-- `RecipeDetailSerializer.Meta` inherits `RecipeSerializer.Meta` without
overriding `read_only_fields` (`src/app/recipe/serializers.py`, lines
16-20), so the detail serializer's read-only list is the summary one. -/
def RecipeDetailSerializer.readOnlyFields : List String :=
  RecipeSerializer.readOnlyFields

/-- The writable field names of a serializer: its declared fields minus the
read-only ones — the write path's allow-list. -/
def writableFields (fields ro : List String) : List String :=
  fields.filter (fun f => !(ro.contains f))

/-- The write path of the model serializer: of an incoming payload only the
pairs whose key is a declared, non-read-only field survive into the
validated data. -/
def deserializePayload (fields ro : List String)
    (payload : List (String × FieldVal)) : List (String × FieldVal) :=
  payload.filter (fun p => fields.contains p.1 && !(ro.contains p.1))


/-- Concrete fixture: a recipe of account 1 mirroring the test suite's
sample data (`price` 5.25 as 525 hundredths). -/
def sampleRecipe1 : Recipe :=
  { id := 1, user := 1, title := "Sample Recipe Title"
    description := "Sample Recipe Description", timeMinutes := 22
    price := 525, link := "https://example.com/recipe.pdf" }

/-- Concrete fixture: a recipe of a second account. -/
def sampleRecipe2 : Recipe :=
  { id := 2, user := 2, title := "Other Recipe Title", timeMinutes := 5, price := 550 }

/-- Concrete fixture: a store holding one recipe of each account. -/
def sampleStore : Store := { recipes := [sampleRecipe2, sampleRecipe1], nextId := 3 }

/-- `sampleRecipe1` after a partial update of only the title. -/
def sampleRecipe1Renamed : Recipe := { sampleRecipe1 with title := "Recipe New Title" }

/-- `sampleStore` after that partial update. -/
def sampleStoreRenamed : Store :=
  { recipes := [sampleRecipe2, sampleRecipe1Renamed], nextId := 3 }

/-- A create payload that also smuggles a `user` key. -/
def sampleCreatePayload : RecipeFields :=
  { user := some 2, title := some "T", timeMinutes := some 5, price := some 550 }

/-- The record created from `sampleCreatePayload` by account 1. -/
def sampleCreatedRecipe : Recipe :=
  { id := 3, user := 1, title := "T", description := "", timeMinutes := 5
    price := 550, link := "" }

/-- `sampleStore` after that create. -/
def sampleStoreAfterCreate : Store :=
  { recipes := [sampleCreatedRecipe, sampleRecipe2, sampleRecipe1], nextId := 4 }

/-- A complete full-update payload that also smuggles a `user` key. -/
def sampleFullPayload : RecipeFields :=
  { user := some 2, title := some "New Sample title"
    description := some "New Sample Description", timeMinutes := some 10
    price := some 250, link := some "https://example.com/new_recipe.pdf" }

/-- `sampleRecipe1` after the full update with `sampleFullPayload`. -/
def sampleRecipe1Replaced : Recipe :=
  { id := 1, user := 1, title := "New Sample title"
    description := "New Sample Description", timeMinutes := 10
    price := 250, link := "https://example.com/new_recipe.pdf" }

/-- `sampleStore` after that full update. -/
def sampleStoreReplaced : Store :=
  { recipes := [sampleRecipe2, sampleRecipe1Replaced], nextId := 3 }

theorem lowerUntilAt_append_at (xs ys : List Char) (h : '@' ∉ xs) :
    lowerUntilAt (xs ++ '@' :: ys) = xs.map Char.toLower ++ '@' :: ys := by
  induction xs with
  | nil => simp [lowerUntilAt]
  | cons c cs ih =>
    have hc : c ≠ '@' := fun hc => h (hc ▸ List.mem_cons_self c cs)
    have hcs : '@' ∉ cs := fun hm => h (List.mem_cons_of_mem c hm)
    simp [lowerUntilAt, hc, ih hcs]

theorem normalizeEmailChars_split (lp dp : List Char) (h : '@' ∉ dp) :
    normalizeEmailChars (lp ++ '@' :: dp) = lp ++ '@' :: dp.map Char.toLower := by
  have hmem : '@' ∈ lp ++ '@' :: dp := by
    exact List.mem_append_right lp (List.mem_cons_self _ _)
  have hrev : (lp ++ '@' :: dp).reverse = dp.reverse ++ '@' :: lp.reverse := by
    simp [List.reverse_append]
  have hnot : '@' ∉ dp.reverse := by simpa using h
  rw [normalizeEmailChars, if_pos hmem, hrev, lowerUntilAt_append_at _ _ hnot]
  simp [List.reverse_append, List.map_reverse]

theorem mem_insertByIdDesc (r x : Recipe) (l : List Recipe) :
    x ∈ insertByIdDesc r l ↔ x = r ∨ x ∈ l := by
  induction l with
  | nil => simp [insertByIdDesc]
  | cons a as ih =>
    by_cases h : a.id ≤ r.id
    · simp [insertByIdDesc, h, List.mem_cons]
    · simp only [insertByIdDesc, if_neg h, List.mem_cons, ih]
      tauto

theorem pairwise_insertByIdDesc (r : Recipe) (l : List Recipe)
    (h : List.Pairwise (fun a b => b.id ≤ a.id) l) :
    List.Pairwise (fun a b => b.id ≤ a.id) (insertByIdDesc r l) := by
  induction l with
  | nil => simp [insertByIdDesc]
  | cons a as ih =>
    rw [List.pairwise_cons] at h
    obtain ⟨ha, has⟩ := h
    by_cases hle : a.id ≤ r.id
    · simp only [insertByIdDesc, if_pos hle]
      rw [List.pairwise_cons]
      refine ⟨?_, ?_⟩
      · intro b hb
        rcases List.mem_cons.mp hb with hb | hb
        · exact hb ▸ hle
        · exact le_trans (ha b hb) hle
      · rw [List.pairwise_cons]
        exact ⟨ha, has⟩
    · simp only [insertByIdDesc, if_neg hle]
      rw [List.pairwise_cons]
      refine ⟨?_, ih has⟩
      intro b hb
      rcases (mem_insertByIdDesc r b as).mp hb with hb | hb
      · exact hb ▸ Nat.le_of_lt (Nat.lt_of_not_le hle)
      · exact ha b hb

theorem mem_sortByIdDesc (x : Recipe) (l : List Recipe) :
    x ∈ sortByIdDesc l ↔ x ∈ l := by
  induction l with
  | nil => simp [sortByIdDesc]
  | cons a as ih => simp [sortByIdDesc, mem_insertByIdDesc, ih, List.mem_cons]

theorem pairwise_sortByIdDesc (l : List Recipe) :
    List.Pairwise (fun a b => b.id ≤ a.id) (sortByIdDesc l) := by
  induction l with
  | nil => simp [sortByIdDesc]
  | cons a as ih => exact pairwise_insertByIdDesc a _ ih

theorem getRecipe_eq_notFound (s : Store) (owner id : Nat)
    (h : ∀ x ∈ s.recipes, ¬(x.id = id ∧ x.user = owner)) :
    getRecipe s owner id = .error .notFound := by
  rw [getRecipe]
  have hnone : s.recipes.find? (fun r => r.id == id && r.user == owner) = none := by
    rw [List.find?_eq_none]
    intro x hx
    simp only [Bool.and_eq_true, beq_iff_eq]
    exact h x hx
  rw [hnone]

theorem getRecipe_ok_spec (s : Store) (owner id : Nat) (r : Recipe)
    (h : getRecipe s owner id = .ok r) :
    r ∈ s.recipes ∧ r.id = id ∧ r.user = owner := by
  rw [getRecipe] at h
  cases hf : s.recipes.find? (fun r => r.id == id && r.user == owner) with
  | none => rw [hf] at h; cases h
  | some y =>
    rw [hf] at h
    cases h
    have hm := List.mem_of_find?_eq_some hf
    have hp := List.find?_some hf
    simp only [Bool.and_eq_true, beq_iff_eq] at hp
    exact ⟨hm, hp.1, hp.2⟩

theorem getRecipe_isOk_of_mem (s : Store) (owner : Nat) (r : Recipe)
    (hr : r ∈ s.recipes) (hu : r.user = owner) :
    ∃ y, getRecipe s owner r.id = .ok y := by
  rw [getRecipe]
  have : (s.recipes.find? (fun x => x.id == r.id && x.user == owner)).isSome := by
    rw [List.find?_isSome]
    exact ⟨r, hr, by simp [hu]⟩
  cases hf : s.recipes.find? (fun x => x.id == r.id && x.user == owner) with
  | none => rw [hf] at this; cases this
  | some y => exact ⟨y, rfl⟩

theorem applyPartial_ok_spec (r r2 : Recipe) (f : RecipeFields)
    (h : applyPartial r f = .ok r2) :
    r2.id = r.id ∧ r2.user = r.user ∧
    r2.title = f.title.getD r.title ∧
    r2.description = f.description.getD r.description ∧
    r2.timeMinutes = (f.timeMinutes.getD (Int.ofNat r.timeMinutes)).toNat ∧
    r2.price = f.price.getD r.price ∧
    r2.link = f.link.getD r.link := by
  simp only [applyPartial] at h
  split at h
  · cases h
  · simp only [Except.ok.injEq] at h
    subst h
    exact ⟨rfl, rfl, rfl, rfl, rfl, rfl, rfl⟩

theorem applyFull_ok_spec (r r2 : Recipe) (f : RecipeFields) (t : String)
    (tm pr : Int) (ht : f.title = some t) (htm : f.timeMinutes = some tm)
    (hpr : f.price = some pr) (h : applyFull r f = .ok r2) :
    r2.id = r.id ∧ r2.user = r.user ∧ r2.title = t ∧
    r2.description = f.description.getD "" ∧ r2.timeMinutes = tm.toNat ∧
    r2.price = pr ∧ r2.link = f.link.getD "" := by
  simp only [applyFull, ht, htm, hpr] at h
  split at h
  · cases h
  · simp only [Except.ok.injEq] at h
    subst h
    exact ⟨rfl, rfl, rfl, rfl, rfl, rfl, rfl⟩

theorem applyFull_keeps_id_user (r r2 : Recipe) (f : RecipeFields)
    (h : applyFull r f = .ok r2) : r2.id = r.id ∧ r2.user = r.user := by
  cases ht : f.title with
  | none => simp [applyFull, ht] at h
  | some t =>
    cases htm : f.timeMinutes with
    | none => simp [applyFull, ht, htm] at h
    | some tm =>
      cases hpr : f.price with
      | none => simp [applyFull, ht, htm, hpr] at h
      | some pr =>
        obtain ⟨h1, h2, -⟩ := applyFull_ok_spec r r2 f t tm pr ht htm hpr h
        exact ⟨h1, h2⟩

theorem updateRecipe_ok_merge (s : Store) (owner id : Nat) (f : RecipeFields)
    (part : Bool) (r0 r2 : Recipe) (s2 : Store)
    (h0 : getRecipe s owner id = .ok r0)
    (hu : updateRecipe s owner id f part = .ok (r2, s2)) :
    (if part then applyPartial r0 f else applyFull r0 f) = .ok r2 ∧
    s2 = { s with recipes := s.recipes.map (fun x => if x.id == id then r2 else x) } := by
  simp only [updateRecipe, h0] at hu
  cases heq : (if part then applyPartial r0 f else applyFull r0 f) with
  | error e =>
    simp only [heq] at hu
    exact absurd hu (by simp)
  | ok r3 =>
    simp only [heq, Except.ok.injEq, Prod.mk.injEq] at hu
    obtain ⟨hr3, hs3⟩ := hu
    subst hr3
    exact ⟨rfl, hs3.symm⟩

/-- C3: for every password `p`, `create_user("", p)` fails with
`ValidationError`; it never succeeds and never returns an account. -/
theorem createUser_empty_email_fails (p : String) :
    createUser "" p = .error .validationError := by
  simp [createUser]

/-- Witness for C3 at the test suite's password. -/
theorem createUser_empty_email_fails_witness :
    createUser "" "test123" = .error .validationError :=
  createUser_empty_email_fails "test123"

/-- C4: for every valid email (a local part, the last `'@'`, and a domain
containing no further `'@'`), `create_user` succeeds and the stored email
lower-cases only the domain while preserving the local part exactly. -/
theorem createUser_normalizes_domain (lp dp : List Char) (p : String)
    (h : '@' ∉ dp) :
    createUser (String.mk (lp ++ '@' :: dp)) p =
      .ok { email := String.mk (lp ++ '@' :: dp.map Char.toLower)
            passwordHash := hashPassword p
            isActive := true, isStaff := false, isSuperuser := false } := by
  have hne : String.mk (lp ++ '@' :: dp) ≠ "" := by
    intro hc
    have hdata : lp ++ '@' :: dp = [] := congrArg String.data hc
    simp at hdata
  have hmail : normalizeEmail (String.mk (lp ++ '@' :: dp)) =
      String.mk (lp ++ '@' :: dp.map Char.toLower) := by
    rw [normalizeEmail]
    exact congrArg String.mk (normalizeEmailChars_split lp dp h)
  rw [createUser, if_neg hne, hmail]

/-- Witness for C4 at the test suite's sample `Test2@Example.com`. -/
theorem createUser_normalizes_domain_witness :
    createUser (String.mk ("Test2".data ++ '@' :: "Example.com".data)) "sample123" =
      .ok { email := String.mk ("Test2".data ++ '@' :: "Example.com".data.map Char.toLower)
            passwordHash := hashPassword "sample123"
            isActive := true, isStaff := false, isSuperuser := false } :=
  createUser_normalizes_domain "Test2".data "Example.com".data "sample123" (by decide)

/-- C7: the summary serialization of any recipe has exactly the fields
`id`, `title`, `time_minutes`, `price`, `link` with `id` read-only, and
the detail serialization is the same projection of the same record plus
`description`. -/
theorem serializer_shapes (r : Recipe) :
    serialize RecipeSerializer.fields r =
      [("id", .nat r.id), ("title", .str r.title),
       ("time_minutes", .nat r.timeMinutes), ("price", .int r.price),
       ("link", .str r.link)] ∧
    serialize RecipeDetailSerializer.fields r =
      serialize RecipeSerializer.fields r ++ [("description", .str r.description)] ∧
    RecipeSerializer.readOnlyFields = ["id"] :=
  ⟨rfl, rfl, rfl⟩

/-- Witness for C7 at the sample recipe. -/
theorem serializer_shapes_witness :
    serialize RecipeSerializer.fields sampleRecipe1 =
      [("id", .nat sampleRecipe1.id), ("title", .str sampleRecipe1.title),
       ("time_minutes", .nat sampleRecipe1.timeMinutes),
       ("price", .int sampleRecipe1.price), ("link", .str sampleRecipe1.link)] ∧
    serialize RecipeDetailSerializer.fields sampleRecipe1 =
      serialize RecipeSerializer.fields sampleRecipe1 ++
        [("description", .str sampleRecipe1.description)] ∧
    RecipeSerializer.readOnlyFields = ["id"] :=
  serializer_shapes sampleRecipe1

/-- C8: every unauthenticated request to a recipe endpoint yields 401; the
unauthenticated list carries no recipe data and no handler changes the
store. -/
theorem unauthenticated_requests_401 (s : Store) (id : Nat) (f : RecipeFields)
    (part : Bool) :
    handleList s none = (401, []) ∧
    handleGet s none id = (401, none) ∧
    handleCreate s none f = (401, s) ∧
    handleUpdate s none id f part = (401, s) ∧
    handleDelete s none id = (401, s) :=
  ⟨rfl, rfl, rfl, rfl, rfl⟩

/-- Witness for C8 at the sample store. -/
theorem unauthenticated_requests_401_witness :
    handleList sampleStore none = (401, []) ∧
    handleGet sampleStore none 1 = (401, none) ∧
    handleCreate sampleStore none sampleCreatePayload = (401, sampleStore) ∧
    handleUpdate sampleStore none 1 sampleCreatePayload true = (401, sampleStore) ∧
    handleDelete sampleStore none 1 = (401, sampleStore) :=
  unauthenticated_requests_401 sampleStore 1 sampleCreatePayload true

/-- C10: the detail serializer inherits the summary read-only list, `id` is
the only read-only field of both shapes, and on the detail write path a
client-supplied `id` never reaches the validated data while `description`
does. -/
theorem detail_write_path_read_only_id :
    RecipeDetailSerializer.readOnlyFields = RecipeSerializer.readOnlyFields ∧
    RecipeDetailSerializer.readOnlyFields = ["id"] ∧
    writableFields RecipeDetailSerializer.fields RecipeDetailSerializer.readOnlyFields =
      ["title", "time_minutes", "price", "link", "description"] ∧
    (∀ payload : List (String × FieldVal), ∀ v,
      ("id", v) ∉ deserializePayload RecipeDetailSerializer.fields
        RecipeDetailSerializer.readOnlyFields payload) ∧
    (∀ payload : List (String × FieldVal), ∀ v, ("description", v) ∈ payload →
      ("description", v) ∈ deserializePayload RecipeDetailSerializer.fields
        RecipeDetailSerializer.readOnlyFields payload) := by
  refine ⟨rfl, rfl, rfl, ?_, ?_⟩
  · intro payload v hmem
    rw [deserializePayload, List.mem_filter] at hmem
    simp [RecipeDetailSerializer.readOnlyFields, RecipeSerializer.readOnlyFields] at hmem
  · intro payload v hmem
    rw [deserializePayload, List.mem_filter]
    refine ⟨hmem, ?_⟩
    simp [RecipeDetailSerializer.fields, RecipeSerializer.fields,
      RecipeDetailSerializer.readOnlyFields, RecipeSerializer.readOnlyFields]

/-- Witness for C10: in a payload carrying both an `id` and a
`description`, the description survives the detail write path. -/
theorem detail_write_path_read_only_id_witness :
    ("description", FieldVal.str "x") ∈
      deserializePayload RecipeDetailSerializer.fields
        RecipeDetailSerializer.readOnlyFields
        [("id", FieldVal.nat 7), ("description", FieldVal.str "x")] :=
  detail_write_path_read_only_id.2.2.2.2
    [("id", FieldVal.nat 7), ("description", FieldVal.str "x")]
    (FieldVal.str "x") (by simp)

/-- C5: for every caller, list returns exactly the caller's recipes (other
owners' recipes never appear), ordered by descending identifier, and the
authenticated list endpoint serves exactly that with 200. -/
theorem list_scoped_and_ordered (s : Store) (u : Nat) :
    (∀ r : Recipe, r ∈ listRecipes s u ↔ (r ∈ s.recipes ∧ r.user = u)) ∧
    List.Pairwise (fun a b => b.id ≤ a.id) (listRecipes s u) ∧
    handleList s (some u) = (200, listRecipes s u) := by
  refine ⟨?_, pairwise_sortByIdDesc _, rfl⟩
  intro r
  rw [listRecipes, mem_sortByIdDesc, List.mem_filter]
  simp

/-- Witness for C5 at the sample store: account 1 sees its recipe, not the
other account's, and the result is ordered. -/
theorem list_scoped_and_ordered_witness :
    (sampleRecipe1 ∈ listRecipes sampleStore 1 ↔
      (sampleRecipe1 ∈ sampleStore.recipes ∧ sampleRecipe1.user = 1)) ∧
    (sampleRecipe2 ∈ listRecipes sampleStore 1 ↔
      (sampleRecipe2 ∈ sampleStore.recipes ∧ sampleRecipe2.user = 1)) ∧
    List.Pairwise (fun a b => b.id ≤ a.id) (listRecipes sampleStore 1) ∧
    handleList sampleStore (some 1) = (200, listRecipes sampleStore 1) :=
  ⟨(list_scoped_and_ordered sampleStore 1).1 sampleRecipe1,
   (list_scoped_and_ordered sampleStore 1).1 sampleRecipe2,
   (list_scoped_and_ordered sampleStore 1).2.1,
   (list_scoped_and_ordered sampleStore 1).2.2⟩

/-- C1: with unique identifiers, a get or delete by `u1` of a recipe owned
by a different account `u2` fails with `NotFound` — the same outcome as for
a truly non-existent id — and the failed delete leaves the record present
in the store. -/
theorem cross_owner_access_not_found (s : Store) (u1 u2 id0 : Nat) (r : Recipe)
    (huniq : idsUnique s) (hne : u1 ≠ u2) (hr : r ∈ s.recipes) (hu : r.user = u2)
    (hfresh : ∀ x ∈ s.recipes, x.id ≠ id0) :
    getRecipe s u1 r.id = .error .notFound ∧
    handleDelete s (some u1) r.id = (404, s) ∧
    r ∈ (handleDelete s (some u1) r.id).2.recipes ∧
    getRecipe s u1 r.id = getRecipe s u1 id0 ∧
    handleDelete s (some u1) r.id = handleDelete s (some u1) id0 := by
  have hget : getRecipe s u1 r.id = .error .notFound := by
    apply getRecipe_eq_notFound
    intro x hx hc
    obtain ⟨hid, huser⟩ := hc
    have hxr : x = r := huniq x hx r hr hid
    rw [hxr, hu] at huser
    exact hne huser.symm
  have hget0 : getRecipe s u1 id0 = .error .notFound := by
    apply getRecipe_eq_notFound
    intro x hx hc
    exact hfresh x hx hc.1
  have hdel : handleDelete s (some u1) r.id = (404, s) := by
    simp [handleDelete, deleteRecipe, hget]
  have hdel0 : handleDelete s (some u1) id0 = (404, s) := by
    simp [handleDelete, deleteRecipe, hget0]
  refine ⟨hget, hdel, ?_, ?_, ?_⟩
  · rw [hdel]
    exact hr
  · rw [hget, hget0]
  · rw [hdel, hdel0]

/-- Witness for C1: account 1 cannot get or delete account 2's recipe in
the sample store, exactly as for the unused id 99. -/
theorem cross_owner_access_not_found_witness :
    getRecipe sampleStore 1 sampleRecipe2.id = .error .notFound ∧
    handleDelete sampleStore (some 1) sampleRecipe2.id = (404, sampleStore) ∧
    sampleRecipe2 ∈ (handleDelete sampleStore (some 1) sampleRecipe2.id).2.recipes ∧
    getRecipe sampleStore 1 sampleRecipe2.id = getRecipe sampleStore 1 99 ∧
    handleDelete sampleStore (some 1) sampleRecipe2.id =
      handleDelete sampleStore (some 1) 99 :=
  cross_owner_access_not_found sampleStore 1 2 99 sampleRecipe2
    (by unfold idsUnique; decide) (by decide) (by decide) (by decide) (by decide)

/-- C9: deleting one's own recipe succeeds with 204 and afterwards no
record with that identifier exists anywhere in the store, for any owner. -/
theorem own_delete_removes_globally (s : Store) (u : Nat) (r : Recipe)
    (hr : r ∈ s.recipes) (hu : r.user = u) :
    (handleDelete s (some u) r.id).1 = 204 ∧
    ∀ x ∈ (handleDelete s (some u) r.id).2.recipes, x.id ≠ r.id := by
  obtain ⟨y, hy⟩ := getRecipe_isOk_of_mem s u r hr hu
  have hdel : handleDelete s (some u) r.id =
      (204, { s with recipes := s.recipes.filter (fun x => !(x.id == r.id)) }) := by
    simp [handleDelete, deleteRecipe, hy]
  rw [hdel]
  refine ⟨rfl, ?_⟩
  intro x hx
  rw [List.mem_filter] at hx
  simpa using hx.2

/-- Witness for C9: account 1 deletes its own sample recipe; the id is gone
from the whole store. -/
theorem own_delete_removes_globally_witness :
    (handleDelete sampleStore (some 1) sampleRecipe1.id).1 = 204 ∧
    ∀ x ∈ (handleDelete sampleStore (some 1) sampleRecipe1.id).2.recipes,
      x.id ≠ sampleRecipe1.id :=
  own_delete_removes_globally sampleStore 1 sampleRecipe1 (by decide) (by decide)

/-- C2: create binds the record's owner to the authenticated caller
regardless of any user key in the payload, and an update (partial or full)
whose payload carries a user key leaves the record's owner unchanged. -/
theorem owner_binding_immutable (s : Store) (owner id : Nat) (f : RecipeFields)
    (part : Bool) :
    (∀ r s2, createRecipe s owner f = .ok (r, s2) → r.user = owner) ∧
    (∀ r0 r2 s2, getRecipe s owner id = .ok r0 →
      updateRecipe s owner id f part = .ok (r2, s2) → r2.user = r0.user) := by
  constructor
  · intro r s2 h
    cases ht : f.title with
    | none => simp [createRecipe, ht] at h
    | some t =>
      cases htm : f.timeMinutes with
      | none => simp [createRecipe, ht, htm] at h
      | some tm =>
        cases hpr : f.price with
        | none => simp [createRecipe, ht, htm, hpr] at h
        | some pr =>
          simp only [createRecipe, ht, htm, hpr] at h
          split at h
          · exact absurd h (by simp)
          · simp only [Except.ok.injEq, Prod.mk.injEq] at h
            obtain ⟨hr, -⟩ := h
            rw [← hr]
  · intro r0 r2 s2 h0 hu
    obtain ⟨hm, -⟩ := updateRecipe_ok_merge s owner id f part r0 r2 s2 h0 hu
    cases part
    · simp only [Bool.false_eq_true, if_false] at hm
      exact (applyFull_keeps_id_user r0 r2 f hm).2
    · simp only [if_true] at hm
      exact (applyPartial_ok_spec r0 r2 f hm).2.1

/-- Witness for C2: a create payload smuggling `user = 2` still yields a
record owned by caller 1, and a patch of only a `user` key leaves the
record's owner alone. -/
theorem owner_binding_immutable_witness :
    sampleCreatedRecipe.user = 1 ∧ sampleRecipe1.user = sampleRecipe1.user :=
  ⟨(owner_binding_immutable sampleStore 1 1 sampleCreatePayload true).1
      sampleCreatedRecipe sampleStoreAfterCreate (by rfl),
   (owner_binding_immutable sampleStore 1 1 { user := some 2 } true).2
      sampleRecipe1 sampleRecipe1 sampleStore (by rfl) (by rfl)⟩

/-- C6: a partial update supplying only a title changes only the title —
link, description, time, price, owner and id are unchanged — while a full
update with a complete payload replaces every supplied field with the
supplied value. -/
theorem update_frame_conditions (s : Store) (owner id : Nat) (r0 : Recipe)
    (h0 : getRecipe s owner id = .ok r0) :
    (∀ t r2 s2,
      updateRecipe s owner id { title := some t } true = .ok (r2, s2) →
      r2.title = t ∧ r2.link = r0.link ∧ r2.description = r0.description ∧
      r2.timeMinutes = r0.timeMinutes ∧ r2.price = r0.price ∧
      r2.user = r0.user ∧ r2.id = r0.id) ∧
    (∀ u2 t d tm pr lk r2 s2,
      updateRecipe s owner id
        { user := some u2, title := some t, description := some d
          timeMinutes := some tm, price := some pr, link := some lk } false =
        .ok (r2, s2) →
      r2.title = t ∧ r2.description = d ∧ r2.timeMinutes = tm.toNat ∧
      r2.price = pr ∧ r2.link = lk ∧ r2.user = r0.user ∧ r2.id = r0.id) := by
  constructor
  · intro t r2 s2 hu
    obtain ⟨hm, -⟩ := updateRecipe_ok_merge s owner id _ true r0 r2 s2 h0 hu
    simp only [if_true] at hm
    obtain ⟨hid, huser, htitle, hdesc, htm, hpr, hlink⟩ :=
      applyPartial_ok_spec r0 r2 _ hm
    exact ⟨by simpa using htitle, by simpa using hlink, by simpa using hdesc,
           by simpa using htm, by simpa using hpr, huser, hid⟩
  · intro u2 t d tm pr lk r2 s2 hu
    obtain ⟨hm, -⟩ := updateRecipe_ok_merge s owner id _ false r0 r2 s2 h0 hu
    simp only [Bool.false_eq_true, if_false] at hm
    obtain ⟨hid, huser, htitle, hdesc, htm2, hpr2, hlink⟩ :=
      applyFull_ok_spec r0 r2 _ t tm pr rfl rfl rfl hm
    exact ⟨htitle, by simpa using hdesc, htm2, hpr2, by simpa using hlink,
           huser, hid⟩

/-- Witness for C6: the sample partial retitle leaves every other field of
the record alone, and the sample full update replaces every supplied
field. -/
theorem update_frame_conditions_witness :
    (sampleRecipe1Renamed.title = "Recipe New Title" ∧
     sampleRecipe1Renamed.link = sampleRecipe1.link ∧
     sampleRecipe1Renamed.description = sampleRecipe1.description ∧
     sampleRecipe1Renamed.timeMinutes = sampleRecipe1.timeMinutes ∧
     sampleRecipe1Renamed.price = sampleRecipe1.price ∧
     sampleRecipe1Renamed.user = sampleRecipe1.user ∧
     sampleRecipe1Renamed.id = sampleRecipe1.id) ∧
    (sampleRecipe1Replaced.title = "New Sample title" ∧
     sampleRecipe1Replaced.description = "New Sample Description" ∧
     sampleRecipe1Replaced.timeMinutes = Int.toNat 10 ∧
     sampleRecipe1Replaced.price = 250 ∧
     sampleRecipe1Replaced.link = "https://example.com/new_recipe.pdf" ∧
     sampleRecipe1Replaced.user = sampleRecipe1.user ∧
     sampleRecipe1Replaced.id = sampleRecipe1.id) :=
  ⟨(update_frame_conditions sampleStore 1 1 sampleRecipe1 (by rfl)).1
      "Recipe New Title" sampleRecipe1Renamed sampleStoreRenamed (by rfl),
   (update_frame_conditions sampleStore 1 1 sampleRecipe1 (by rfl)).2
      2 "New Sample title" "New Sample Description" 10 250
      "https://example.com/new_recipe.pdf" sampleRecipe1Replaced
      sampleStoreReplaced (by rfl)⟩
